import Mathlib

/-
Formal model of the dock-scheduling core of the EV supply-chain agent.

Shallow embedding conventions:
- All timestamps and durations are integers in minutes (the source stores
  ISO datetimes at minute granularity and compares/subtracts them; Python
  floor-division of whole-minute differences is exact, except in the batch
  solver where slot discretization uses floor division, modelled with
  Int.fdiv).
- Python floats used for confidences/costs are modelled as rationals; every
  arithmetic operation involved (+, -, *, min, max, division by 60) is exact
  at the small decimal values the code manipulates.
- The sqlite tables (dock_doors, dock_assignments, dock_resources,
  dock_events) are modelled as lists inside a DBState record; SQL queries
  become list filters in row order, and INSERT becomes list append.
- uuid-generated identifiers carry no semantic weight; they are modelled by
  fixed placeholder strings.
- datetime.utcnow() is modelled by an explicit `now`/`time_ref` parameter.
-/

namespace DockingAgent

/-! ## Data model (schemas.py and the sqlite tables) -/

/-- Row of the dock_doors table. -/
structure Door where
  door_id : String
  location : String
  is_active : Int
deriving DecidableEq, Repr

/-- Row of the dock_assignments table (the why_json provenance blob is not
modelled; it never feeds back into any computation). -/
structure Assignment where
  assignment_id : String
  location : String
  door_id : String
  job_type : String
  ref_id : String
  start_utc : Int
  end_utc : Int
  crew : String
  status : String
deriving DecidableEq, Repr

/-- Row of the dock_resources calendar table. -/
structure ResourceSlot where
  location : String
  slot_start_utc : Int
  slot_end_utc : Int
  crews : Int
  forklifts : Int
deriving DecidableEq, Repr

/-- Row of the dock_events table (reason_detail blob not modelled). -/
structure DockEvent where
  event_id : String
  location : String
  door_id : String
  job_type : String
  ref_id : String
  event_type : String
  reason_code : String
deriving DecidableEq, Repr

/-- The persistent state touched by the scheduling core. -/
structure DBState where
  dock_doors : List Door
  dock_assignments : List Assignment
  dock_resources : List ResourceSlot
  dock_events : List DockEvent
deriving DecidableEq, Repr

/-- schemas.Proposal (feasibility dict fixed to its only produced value
crew="auto", mhe_ok=True, so it is not carried). -/
structure Proposal where
  task_id : String
  proposal_id : String
  job_type : String
  ref_id : String
  location : String
  door_id : String
  start_utc : Int
  end_utc : Int
  local_cost : ℚ
  lateness_min : Int
deriving DecidableEq, Repr

/-- schemas.Decision. -/
structure Decision where
  decision_id : String
  accepted_proposals : List Proposal
  confidence : ℚ
  why : List String
deriving DecidableEq, Repr

/-- schemas.RequestInboundSlot. -/
structure RequestInboundSlot where
  task_id : String
  location : String
  truck_id : String
  eta_utc : Int
  unload_min : Int
  priority : Int
  window_min : Int
deriving DecidableEq, Repr

/-! ## validate.py -/

/-- validate.overlaps: half-open interval overlap test. -/
def overlaps (a_start a_end b_start b_end : Int) : Bool :=
  !(decide (a_end ≤ b_start) || decide (b_end ≤ a_start))

/-- Status values that block a door (the SQL filter
status IN ('scheduled','in_progress')). -/
def statusActive (s : String) : Bool :=
  s == "scheduled" || s == "in_progress"

/-- The rows of dock_resources selected by hard_checks' resource query:
slots at the proposal's location wholly contained in [start_utc, end_utc]. -/
def contained_slots (db : DBState) (p : Proposal) : List ResourceSlot :=
  db.dock_resources.filter (fun r =>
    r.location == p.location &&
    decide (p.start_utc ≤ r.slot_start_utc) && decide (r.slot_end_utc ≤ p.end_utc))

/-- validate.hard_checks: door exists/active, then no overlapping active
assignment on the door, then the MIN(crews)/MIN(forklifts) aggregate over
the contained calendar slots. -/
def hard_checks (db : DBState) (p : Proposal) : Bool × String :=
  match db.dock_doors.find? (fun d => d.door_id == p.door_id) with
  | none => (false, "inactive_or_missing_door")
  | some d =>
    if d.is_active ≠ 1 then (false, "inactive_or_missing_door")
    else if db.dock_assignments.any (fun a =>
        a.door_id == p.door_id && statusActive a.status &&
        overlaps a.start_utc a.end_utc p.start_utc p.end_utc) then
      (false, "double_booking")
    else
      match contained_slots db p with
      | [] => (false, "no_resource_calendar")
      | r0 :: rest =>
        let minCrews := rest.foldl (fun m r => min m r.crews) r0.crews
        let minForks := rest.foldl (fun m r => min m r.forklifts) r0.forklifts
        if minCrews < 1 ∨ minForks < 1 then (false, "insufficient_resources")
        else (true, "ok")

/-- validate.score_confidence (floats as rationals). -/
def score_confidence (hard_ok : Bool) (lateness_min : Int) (heuristic_cost : ℚ)
    (penalties : ℚ) : ℚ :=
  let base : ℚ := if hard_ok then 1 else 0
  let late_pen : ℚ := min (((max lateness_min 0 : Int) : ℚ) / 60) 1 * (3/10)
  let cost_pen : ℚ := min (max heuristic_cost 0 / 60) 1 * (3/10)
  max 0 (min 1 (base - late_pen - cost_pen - penalties))

/-! ## heuristic.py -/

/-- Association-list read mirroring Python dict.get(k, d). -/
def dict_get {α : Type} (m : List (String × α)) (k : String) (d : α) : α :=
  match m.find? (fun q => q.1 == k) with
  | some q => q.2
  | none => d

/-- Association-list write mirroring Python dict assignment: update in place
when the key exists, append a new entry otherwise (insertion order kept). -/
def dict_set {α : Type} (m : List (String × α)) (k : String) (v : α) :
    List (String × α) :=
  if m.any (fun q => q.1 == k) then
    m.map (fun q => if q.1 == k then (k, v) else q)
  else m ++ [(k, v)]

/-- The active doors of a location, in table row order (the SQL query in
load_free_windows / optimize_batch_and_commit). -/
def active_doors (db : DBState) (location : String) : List String :=
  (db.dock_doors.filter (fun d => d.location == location && d.is_active == 1)).map
    (fun d => d.door_id)

/-- The assignment rows read by load_free_windows: any assignment at the
location whose end is not in the past — note: no status filter appears in
the source query. -/
def fw_rows (assignments : List Assignment) (location : String) (now : Int) :
    List (String × Int × Int) :=
  (assignments.filter (fun a => a.location == location && decide (now ≤ a.end_utc))).map
    (fun a => (a.door_id, a.start_utc, a.end_utc))

/-- Subtract the busy interval [s, e) from one free window [ws, we)
(the inner loop body of load_free_windows). -/
def subtract_busy (s e ws we : Int) : List (Int × Int) :=
  if e ≤ ws ∨ s ≥ we then [(ws, we)]
  else (if ws < s then [(ws, s)] else []) ++ (if e < we then [(e, we)] else [])

/-- heuristic.load_free_windows: per active door, the free intervals in
[now, now + horizon_min) left after removing every row of `fw_rows`. -/
def load_free_windows (db : DBState) (now : Int) (location : String)
    (horizon_min : Int) : List (String × List (Int × Int)) :=
  let doors := active_doors db location
  let windows := doors.map (fun d => (d, [(now, now + horizon_min)]))
  (fw_rows db.dock_assignments location now).foldl (fun windows row =>
    let new := (dict_get windows row.1 []).foldl
      (fun acc w => acc ++ subtract_busy row.2.1 row.2.2 w.1 w.2) []
    dict_set windows row.1 new) windows

/-- A candidate door/slot binding considered by greedy_assign. -/
structure Cand where
  door_id : String
  start : Int
  end_ : Int
  lateness : Int
  local_cost : Int
deriving DecidableEq, Repr

/-- The candidate built from one (door, free window) pair, when it
qualifies: start = max(window start, earliest); end = start + duration;
rejected when end overruns the window or the wait exceeds max_wait_min. -/
def window_cand (earliest duration_min : Int) (deadline : Option Int)
    (priority max_wait_min : Int) (door : String) (w : Int × Int) : Option Cand :=
  let start := max w.1 earliest
  let end_ := start + duration_min
  if end_ > w.2 then none
  else
    let lateness := match deadline with
      | some d => max 0 (end_ - d)
      | none => 0
    let wait := max 0 (start - earliest)
    if wait > max_wait_min then none
    else some ⟨door, start, end_, lateness, wait + 2 * lateness - 5 * priority⟩

/-- greedy_assign's best-so-far update: keep the incumbent on ties
(strict < in the source). -/
def pick (best : Option Cand) (c : Cand) : Option Cand :=
  match best with
  | none => some c
  | some b => if c.local_cost < b.local_cost then some c else some b

/-- The loop body of greedy_assign over one (door, window) pair. -/
def greedy_step (earliest duration_min : Int) (deadline : Option Int)
    (priority max_wait_min : Int) (door : String) (best : Option Cand)
    (w : Int × Int) : Option Cand :=
  let start := max w.1 earliest
  let end_ := start + duration_min
  if end_ > w.2 then best
  else
    let lateness := match deadline with
      | some d => max 0 (end_ - d)
      | none => 0
    let wait := max 0 (start - earliest)
    if wait > max_wait_min then best
    else pick best ⟨door, start, end_, lateness, wait + 2 * lateness - 5 * priority⟩

/-- heuristic.greedy_assign: scan doors then windows, tracking the
cheapest qualifying candidate. The job_type and ref_id arguments are
accepted and ignored exactly as in the source. -/
def greedy_assign (db : DBState) (now : Int) (job_type ref_id location : String)
    (earliest duration_min : Int) (deadline : Option Int)
    (priority max_wait_min : Int) : Option Cand :=
  let _ := job_type
  let _ := ref_id
  let free := load_free_windows db now location 240
  free.foldl (fun best entry =>
    entry.2.foldl (greedy_step earliest duration_min deadline priority max_wait_min entry.1)
      best) none

/-- The full candidate enumeration in the deterministic door-then-window
iteration order (the spec's view of greedy_assign's search space). -/
def cand_list (free : List (String × List (Int × Int))) (earliest duration_min : Int)
    (deadline : Option Int) (priority max_wait_min : Int) : List Cand :=
  free.flatMap (fun entry =>
    entry.2.filterMap (window_cand earliest duration_min deadline priority max_wait_min entry.1))

/-! ## agent.py -/

/-- The INSERT INTO dock_assignments + _log_event pair executed on an
accepted proposal (uuid ids replaced by placeholders; status is always
"scheduled", crew always "auto"). -/
def commit_insert (db : DBState) (p : Proposal) (reason_code : String) : DBState :=
  ⟨db.dock_doors,
   db.dock_assignments ++
     [⟨"asg", p.location, p.door_id, p.job_type, p.ref_id, p.start_utc, p.end_utc,
       "auto", "scheduled"⟩],
   db.dock_resources,
   db.dock_events ++
     [⟨"evt", p.location, p.door_id, p.job_type, p.ref_id, "assigned", reason_code⟩]⟩

/-- One iteration of decide_and_commit's loop. The accumulator carries
(accepted proposals, penalties, database). Note the source passes the
literal penalties=0.0 to score_confidence, not the accumulated variable. -/
def decide_step (acc : List Proposal × ℚ × DBState) (p : Proposal) :
    List Proposal × ℚ × DBState :=
  let ok := (hard_checks acc.2.2 p).1
  let conf := score_confidence ok p.lateness_min p.local_cost 0
  if ok = true ∧ 6/10 ≤ conf then
    (acc.1 ++ [p], acc.2.1, commit_insert acc.2.2 p "heuristic_choice")
  else (acc.1, acc.2.1 + 1/10, acc.2.2)

/-- agent.decide_and_commit: fold the batch, then report the mean of the
re-computed confidences of accepted proposals (0 when none accepted). -/
def decide_and_commit (db : DBState) (proposals : List Proposal) :
    Decision × DBState :=
  let r := proposals.foldl decide_step ([], 0, db)
  let accepted := r.1
  let avg_conf : ℚ :=
    if accepted.isEmpty then 0
    else (accepted.map (fun p => score_confidence true p.lateness_min p.local_cost 0)).sum /
      (accepted.length : ℚ)
  (⟨"dec", accepted, avg_conf, ["heuristic_commit"]⟩, r.2.2)

/-- agent.propose_inbound: greedy assignment with deadline=None, then a
Proposal built from the winning candidate (or None). -/
def propose_inbound (db : DBState) (now : Int) (req : RequestInboundSlot) :
    Option Proposal :=
  match greedy_assign db now "inbound" req.truck_id req.location req.eta_utc
      req.unload_min none req.priority req.window_min with
  | none => none
  | some best =>
    some ⟨req.task_id, "prop", "inbound", req.truck_id, req.location, best.door_id,
      best.start, best.end_, (best.local_cost : ℚ), best.lateness⟩

/-- A batch-optimizer job request (the dict shape read by solve_batch and
optimize_batch_and_commit). -/
structure SolverReq where
  id : String
  job_type : String
  duration_min : Int
  earliest : Int
  deadline : Option Int
  priority : Int
deriving DecidableEq, Repr

/-- One record of solve_batch's output map. -/
structure SolRecord where
  door_id : String
  start : Int
  end_ : Int
  lateness : Int
  local_cost : Int
deriving DecidableEq, Repr

/-- One iteration of optimize_batch_and_commit's commit loop: look the
request up in the solver output, build a Proposal, and commit it whenever
hard_checks alone passes (no confidence threshold appears on this path). -/
def optimize_step (location : String) (sol : List (String × SolRecord))
    (acc : List Proposal × DBState) (req : SolverReq) : List Proposal × DBState :=
  match sol.find? (fun q => q.1 == req.id) with
  | none => acc
  | some q =>
    let p : Proposal := ⟨"task", "prop", req.job_type, req.id, location, q.2.door_id,
      q.2.start, q.2.end_, (q.2.local_cost : ℚ), q.2.lateness⟩
    if (hard_checks acc.2 p).1 then (acc.1 ++ [p], commit_insert acc.2 p "solver_choice")
    else acc

/-- agent.optimize_batch_and_commit, parameterized over the CP-SAT solver's
output map `sol` (the solver itself is modelled separately as a
constraint/objective relation). The reported confidence on this path is the
mean of 1 − lateness-penalty terms. -/
def optimize_commit (db : DBState) (location : String) (requests : List SolverReq)
    (sol : List (String × SolRecord)) : Decision × DBState :=
  if (active_doors db location).isEmpty then
    (⟨"dec-none", [], 0, ["no_doors"]⟩, db)
  else
    let r := requests.foldl (optimize_step location sol) ([], db)
    let accepted := r.1
    let conf : ℚ :=
      if accepted.isEmpty then 0
      else (accepted.map (fun p =>
          1 - min (((max p.lateness_min 0 : Int) : ℚ) / 60) 1 * (3/10))).sum /
        (accepted.length : ℚ)
    (⟨"dec", accepted, conf, ["solver_commit"]⟩, r.2)

/-! ## solver.py (constraint structure of solve_batch)

The CP-SAT search itself is external; what is embedded is the model it is
given: which (job, door, slot) choices the constraints allow, the cost each
carries, and how a chosen slot is decoded back into a start time. -/

/-- solve_batch's earliest admissible slot for a request: floor-divide the
minutes from time_ref to the earliest-ready time by the 5-minute slot
(Python // is floor division, hence Int.fdiv). -/
def solver_earliest_k (time_ref earliest : Int) : Int :=
  max 0 ((earliest - time_ref).fdiv 5)

/-- solve_batch's slot count for a request's duration. -/
def solver_dur_k (duration_min : Int) : Int :=
  max 1 (duration_min.fdiv 5)

/-- solve_batch's latest admissible start slot within the horizon of H slots. -/
def solver_latest_k (H duration_min : Int) : Int :=
  H - solver_dur_k duration_min

/-- The slots the CP model leaves free for a request (outside this range the
variable is pinned to 0). -/
def solver_slot_allowed (time_ref : Int) (H : Int) (req : SolverReq) (t : Int) : Prop :=
  solver_earliest_k time_ref req.earliest ≤ t ∧ t ≤ solver_latest_k H req.duration_min

/-- The objective coefficient solve_batch attaches to starting `req` at
slot t. -/
def solver_slot_cost (time_ref : Int) (req : SolverReq) (t : Int) : Int :=
  let end_min := (t + solver_dur_k req.duration_min) * 5
  let lateness := match req.deadline with
    | some d => max 0 (end_min - max 0 (d - time_ref))
    | none => 0
  let wait := max 0 (t * 5 - max 0 (req.earliest - time_ref))
  wait + 2 * lateness - 5 * req.priority

/-- The start time solve_batch decodes from a chosen slot. -/
def solver_start (time_ref t : Int) : Int := time_ref + t * 5

/-- Total objective of a single-request, single-door instance with the
default 240-minute horizon (48 slots): the job is assigned at some slot or
left unassigned (x summing to ≤ 1 makes `none` legal with cost 0). -/
def one_job_cost (time_ref : Int) (req : SolverReq) : Option (Fin 48) → Int
  | none => 0
  | some t => solver_slot_cost time_ref req t.val

/-- Feasibility of a single-request choice under the CP model's constraints. -/
def one_job_allowed (time_ref : Int) (req : SolverReq) : Option (Fin 48) → Prop
  | none => True
  | some t => solver_slot_allowed time_ref 48 req t.val

/-- A choice the CP solver may return: feasible and of minimal objective. -/
def one_job_optimal (time_ref : Int) (req : SolverReq) (c : Option (Fin 48)) : Prop :=
  one_job_allowed time_ref req c ∧
  ∀ c', one_job_allowed time_ref req c' →
    one_job_cost time_ref req c ≤ one_job_cost time_ref req c'

/-- The output record solve_batch builds from a chosen slot. -/
def solver_decode (time_ref : Int) (doors : List String) (req : SolverReq)
    (d : Nat) (t : Int) : SolRecord :=
  let start := solver_start time_ref t
  let end_ := start + req.duration_min
  let lateness := match req.deadline with
    | some dl => max 0 (end_ - dl)
    | none => 0
  let wait := max 0 (start - req.earliest)
  ⟨doors.getD d "", start, end_, lateness, wait + 2 * lateness - 5 * req.priority⟩

instance (time_ref H : Int) (req : SolverReq) (t : Int) :
    Decidable (solver_slot_allowed time_ref H req t) := by
  unfold solver_slot_allowed
  exact instDecidableAnd

instance (time_ref : Int) (req : SolverReq) (c : Option (Fin 48)) :
    Decidable (one_job_allowed time_ref req c) := by
  cases c with
  | none => exact isTrue trivial
  | some t => exact instDecidableAnd

instance (time_ref : Int) (req : SolverReq) (c : Option (Fin 48)) :
    Decidable (one_job_optimal time_ref req c) :=
  instDecidableAnd

/-! ## Helper lemmas: the greedy fold as a first-minimum search -/

lemma greedy_step_eq (e dm : Int) (dl : Option Int) (pr mw : Int) (door : String)
    (b : Option Cand) (w : Int × Int) :
    greedy_step e dm dl pr mw door b w =
      (window_cand e dm dl pr mw door w).elim b (pick b) := by
  simp only [greedy_step, window_cand]
  split_ifs <;> rfl

lemma foldl_greedy_windows (e dm : Int) (dl : Option Int) (pr mw : Int)
    (door : String) (ws : List (Int × Int)) (b : Option Cand) :
    ws.foldl (greedy_step e dm dl pr mw door) b =
      (ws.filterMap (window_cand e dm dl pr mw door)).foldl pick b := by
  induction ws generalizing b with
  | nil => rfl
  | cons w ws ih =>
    rw [List.foldl_cons, List.filterMap_cons, greedy_step_eq]
    cases h : window_cand e dm dl pr mw door w with
    | none => simp only [Option.elim]; exact ih b
    | some c => simp only [Option.elim, List.foldl_cons]; exact ih (pick b c)

lemma foldl_greedy_eq (e dm : Int) (dl : Option Int) (pr mw : Int)
    (free : List (String × List (Int × Int))) (b : Option Cand) :
    free.foldl (fun best entry =>
        entry.2.foldl (greedy_step e dm dl pr mw entry.1) best) b =
      (cand_list free e dm dl pr mw).foldl pick b := by
  induction free generalizing b with
  | nil => rfl
  | cons entry free ih =>
    rw [List.foldl_cons, cand_list, List.flatMap_cons, List.foldl_append,
      foldl_greedy_windows]
    exact ih _

lemma greedy_assign_eq_foldl_pick (db : DBState) (now : Int)
    (job_type ref_id location : String) (e dm : Int) (dl : Option Int) (pr mw : Int) :
    greedy_assign db now job_type ref_id location e dm dl pr mw =
      (cand_list (load_free_windows db now location 240) e dm dl pr mw).foldl pick none := by
  simp only [greedy_assign]
  exact foldl_greedy_eq e dm dl pr mw _ none

lemma foldl_pick_some_isSome (l : List Cand) (b : Cand) :
    ∃ b', l.foldl pick (some b) = some b' := by
  induction l generalizing b with
  | nil => exact ⟨b, rfl⟩
  | cons c l ih =>
    rw [List.foldl_cons]
    show ∃ b', l.foldl pick (if c.local_cost < b.local_cost then some c else some b) = some b'
    split_ifs <;> exact ih _

lemma foldl_pick_none_iff (l : List Cand) :
    l.foldl pick none = none ↔ l = [] := by
  constructor
  · intro h
    cases l with
    | nil => rfl
    | cons c l =>
      rw [List.foldl_cons] at h
      obtain ⟨b', hb'⟩ := foldl_pick_some_isSome l c
      rw [show pick none c = some c from rfl] at h
      rw [hb'] at h
      exact absurd h (by simp)
  · intro h; subst h; rfl

/-- The result of folding `pick` from `none` is the first candidate attaining
the minimum cost: everything strictly before it costs strictly more, and
nothing anywhere costs less. -/
lemma foldl_pick_min (l : List Cand) :
    ∀ b, l.foldl pick none = some b →
      ∃ pre post, l = pre ++ b :: post ∧
        (∀ c ∈ pre, b.local_cost < c.local_cost) ∧
        (∀ c ∈ l, b.local_cost ≤ c.local_cost) := by
  induction l using List.reverseRecOn with
  | nil => intro b h; exact absurd h (by simp)
  | append_singleton l c ih =>
    intro b h
    rw [List.foldl_append, List.foldl_cons, List.foldl_nil] at h
    cases hl : l.foldl pick none with
    | none =>
      have hnil : l = [] := (foldl_pick_none_iff l).mp hl
      subst hnil
      rw [List.foldl_nil] at h
      rw [show pick none c = some c from rfl] at h
      cases h
      exact ⟨[], [], rfl, by intro x hx; exact absurd hx (by simp),
        by intro x hx; simp at hx; subst hx; exact le_refl _⟩
    | some b' =>
      rw [hl] at h
      obtain ⟨pre, post, hsplit, hpre, hall⟩ := ih b' hl
      rw [show pick (some b') c = if c.local_cost < b'.local_cost then some c else some b'
        from rfl] at h
      split_ifs at h with hlt
      · cases h
        refine ⟨l, [], by simp, ?_, ?_⟩
        · intro x hx
          exact lt_of_lt_of_le hlt (hall x hx)
        · intro x hx
          rcases List.mem_append.mp hx with hx | hx
          · exact le_of_lt (lt_of_lt_of_le hlt (hall x hx))
          · simp at hx; subst hx; exact le_refl _
      · cases h
        refine ⟨pre, post ++ [c], by rw [hsplit]; simp, hpre, ?_⟩
        intro x hx
        rcases List.mem_append.mp hx with hx | hx
        · exact hall x hx
        · simp at hx; subst hx; exact le_of_not_lt hlt

/-- Full description of the candidate a qualifying (door, window) pair
produces. -/
lemma window_cand_spec (e dm : Int) (dl : Option Int) (pr mw : Int)
    (door : String) (w : Int × Int) (c : Cand)
    (h : window_cand e dm dl pr mw door w = some c) :
    c.door_id = door ∧ c.start = max w.1 e ∧ c.end_ = c.start + dm ∧
    (dl = none → c.lateness = 0) ∧
    (∀ d, dl = some d → c.lateness = max 0 (c.end_ - d)) ∧
    c.local_cost = max 0 (c.start - e) + 2 * c.lateness - 5 * pr ∧
    c.end_ ≤ w.2 ∧ max 0 (c.start - e) ≤ mw := by
  simp only [window_cand] at h
  split_ifs at h with h1 h2
  cases h
  refine ⟨rfl, rfl, rfl, ?_, ?_, rfl, ?_, ?_⟩
  · intro hdl; subst hdl; rfl
  · intro d hdl; subst hdl; rfl
  · dsimp only; omega
  · dsimp only; omega

lemma mem_cand_list (free : List (String × List (Int × Int))) (e dm : Int)
    (dl : Option Int) (pr mw : Int) (c : Cand)
    (h : c ∈ cand_list free e dm dl pr mw) :
    ∃ entry ∈ free, ∃ w ∈ entry.2, window_cand e dm dl pr mw entry.1 w = some c := by
  simp only [cand_list, List.mem_flatMap, List.mem_filterMap] at h
  obtain ⟨entry, hentry, w, hw, hcand⟩ := h
  exact ⟨entry, hentry, w, hw, hcand⟩

/-- Every enumerated candidate starts no earlier than the earliest-ready
time. -/
lemma cand_list_start_ge (free : List (String × List (Int × Int))) (e dm : Int)
    (dl : Option Int) (pr mw : Int) (c : Cand)
    (h : c ∈ cand_list free e dm dl pr mw) : e ≤ c.start := by
  obtain ⟨entry, _, w, _, hcand⟩ := mem_cand_list free e dm dl pr mw c h
  obtain ⟨_, hstart, _⟩ := window_cand_spec e dm dl pr mw entry.1 w c hcand
  rw [hstart]
  exact le_max_right _ _

lemma greedy_assign_mem (db : DBState) (now : Int)
    (job_type ref_id location : String) (e dm : Int) (dl : Option Int) (pr mw : Int)
    (b : Cand) (h : greedy_assign db now job_type ref_id location e dm dl pr mw = some b) :
    b ∈ cand_list (load_free_windows db now location 240) e dm dl pr mw := by
  rw [greedy_assign_eq_foldl_pick] at h
  obtain ⟨pre, post, hsplit, -, -⟩ := foldl_pick_min _ b h
  rw [hsplit]
  simp

/-! ## Claim C2: the greedy allocator's optimality contract -/

/-- C2: greedy_assign returns the minimum-cost qualifying candidate over the
door-then-window enumeration (candidates built and rejected exactly as the
source does), keeps the first-found candidate on exact cost ties (every
candidate strictly before the winner costs strictly more), and returns none
exactly when no candidate qualifies. -/
theorem C2_greedy_minimum (db : DBState) (now : Int) (job_type ref_id location : String)
    (earliest duration_min : Int) (deadline : Option Int) (priority max_wait_min : Int) :
    (greedy_assign db now job_type ref_id location earliest duration_min deadline
        priority max_wait_min = none ↔
      cand_list (load_free_windows db now location 240) earliest duration_min deadline
        priority max_wait_min = []) ∧
    (∀ b, greedy_assign db now job_type ref_id location earliest duration_min deadline
        priority max_wait_min = some b →
      ∃ pre post,
        cand_list (load_free_windows db now location 240) earliest duration_min deadline
          priority max_wait_min = pre ++ b :: post ∧
        (∀ c ∈ pre, b.local_cost < c.local_cost) ∧
        (∀ c ∈ cand_list (load_free_windows db now location 240) earliest duration_min
          deadline priority max_wait_min, b.local_cost ≤ c.local_cost)) := by
  rw [greedy_assign_eq_foldl_pick]
  exact ⟨foldl_pick_none_iff _, fun b h => foldl_pick_min _ b h⟩

/-- A two-door location with an empty schedule, used to instantiate C2. -/
def exDB_g : DBState :=
  ⟨[⟨"D1", "L", 1⟩, ⟨"D2", "L", 1⟩], [], [⟨"L", 0, 240, 1, 1⟩], []⟩

/-- Witness for C2 at a concrete input: with two empty doors the greedy
allocator picks the zero-cost candidate on the first door, and that
candidate is minimal with everything before it strictly costlier. -/
theorem C2_greedy_minimum_witness :
    ∃ pre post,
      cand_list (load_free_windows exDB_g 0 "L" 240) 0 30 none 0 60 =
        pre ++ (⟨"D1", 0, 30, 0, 0⟩ : Cand) :: post ∧
      (∀ c ∈ pre, (⟨"D1", 0, 30, 0, 0⟩ : Cand).local_cost < c.local_cost) ∧
      (∀ c ∈ cand_list (load_free_windows exDB_g 0 "L" 240) 0 30 none 0 60,
        (⟨"D1", 0, 30, 0, 0⟩ : Cand).local_cost ≤ c.local_cost) :=
  (C2_greedy_minimum exDB_g 0 "inbound" "T1" "L" 0 30 none 0 60).2
    ⟨"D1", 0, 30, 0, 0⟩ (by decide)

/-! ## Claim C10: inbound proposals never carry lateness -/

/-- C10: propose_inbound hardcodes deadline=None into greedy_assign, so any
returned proposal has lateness 0 and local_cost = wait − 5×priority where
wait = start − earliest-ready (the start never precedes the ETA). -/
theorem C10_inbound_zero_lateness (db : DBState) (now : Int)
    (req : RequestInboundSlot) (p : Proposal)
    (h : propose_inbound db now req = some p) :
    p.lateness_min = 0 ∧ req.eta_utc ≤ p.start_utc ∧
    p.local_cost = (((p.start_utc - req.eta_utc) - 5 * req.priority : Int) : ℚ) := by
  unfold propose_inbound at h
  cases hg : greedy_assign db now "inbound" req.truck_id req.location req.eta_utc
      req.unload_min none req.priority req.window_min with
  | none => rw [hg] at h; exact absurd h (by simp)
  | some best =>
    rw [hg] at h
    cases h
    have hmem := greedy_assign_mem db now "inbound" req.truck_id req.location
      req.eta_utc req.unload_min none req.priority req.window_min best hg
    obtain ⟨entry, -, w, -, hcand⟩ := mem_cand_list _ _ _ _ _ _ best hmem
    obtain ⟨-, hstart, -, hlat0, -, hcost, -, -⟩ :=
      window_cand_spec req.eta_utc req.unload_min none req.priority req.window_min
        entry.1 w best hcand
    have hlat : best.lateness = 0 := hlat0 rfl
    have hge : req.eta_utc ≤ best.start := by rw [hstart]; exact le_max_right _ _
    refine ⟨hlat, hge, ?_⟩
    have hcost' : best.local_cost = (best.start - req.eta_utc) - 5 * req.priority := by
      rw [hcost, hlat]
      omega
    show ((best.local_cost : Int) : ℚ) = _
    rw [hcost']

/-- Witness for C10: a concrete inbound request on the two-door example
state yields a proposal, and the theorem's conclusions hold for it. -/
theorem C10_inbound_zero_lateness_witness :
    ∃ p : Proposal, propose_inbound exDB_g 0 ⟨"t1", "L", "T1", 10, 30, 2, 60⟩ = some p ∧
      p.lateness_min = 0 ∧ (10 : Int) ≤ p.start_utc ∧
      p.local_cost = (((p.start_utc - 10) - 5 * 2 : Int) : ℚ) := by
  refine ⟨⟨"t1", "prop", "inbound", "T1", "L", "D1", 10, 40, -10, 0⟩, by decide, ?_⟩
  exact C10_inbound_zero_lateness exDB_g 0 ⟨"t1", "L", "T1", 10, 30, 2, 60⟩
    ⟨"t1", "prop", "inbound", "T1", "L", "D1", 10, 40, -10, 0⟩ (by decide)

/-! ## Claim C6: start times versus the earliest-ready time -/

/-- The single-request batch instance refuting C6: earliest-ready 7 minutes
after the time reference (not slot-aligned), 20-minute duration, priority 1,
no deadline. -/
def exReq6 : SolverReq := ⟨"j1", "inbound", 20, 7, none, 1⟩

/-- One active door and a resource slot covering exactly the slot-rounded
assignment the optimizer produces for exReq6. -/
def exDB6 : DBState := ⟨[⟨"D1", "L", 1⟩], [], [⟨"L", 5, 25, 1, 1⟩], []⟩

/-- The solver output for exReq6: door D1, start slot 1 (minute 5). -/
def exSol6 : List (String × SolRecord) := [("j1", solver_decode 0 ["D1"] exReq6 0 1)]

/-- Counterexample to C6: on the exReq6 instance every optimal choice of the
batch model starts the job at slot 1 — minute 5, two minutes BEFORE the
job's earliest-ready minute 7 — and optimize_batch_and_commit persists an
Assignment with that early start. The spec's "start ≥ earliest-ready"
invariant is violated by the solver path whenever the earliest-ready time is
not aligned to the 5-minute slot grid. -/
theorem C6_counterexample :
    (∀ c, one_job_optimal 0 exReq6 c → c = some (1 : Fin 48)) ∧
    one_job_optimal 0 exReq6 (some (1 : Fin 48)) ∧
    solver_start 0 1 = 5 ∧ exReq6.earliest = 7 ∧
    ((optimize_commit exDB6 "L" [exReq6] exSol6).2.dock_assignments.map
      (fun a => a.start_utc)) = [5] := by
  refine ⟨by decide, by decide, by decide, by decide, by decide⟩

/-- C6 amended: the greedy allocator's start is never earlier than the
earliest-ready time; the batch optimizer only guarantees start ≥ time_ref
and start ≥ earliest-ready − 4 minutes (slot size − 1), because the earliest
slot is the floor of the earliest-ready offset in 5-minute slots. -/
theorem C6_amended_start_bounds :
    (∀ (db : DBState) (now : Int) (job_type ref_id location : String)
      (earliest duration_min : Int) (deadline : Option Int) (priority max_wait_min : Int)
      (b : Cand),
      greedy_assign db now job_type ref_id location earliest duration_min deadline
        priority max_wait_min = some b → earliest ≤ b.start) ∧
    (∀ (time_ref H : Int) (req : SolverReq) (t : Int),
      solver_slot_allowed time_ref H req t →
      time_ref ≤ solver_start time_ref t ∧ req.earliest - 4 ≤ solver_start time_ref t) := by
  constructor
  · intro db now job_type ref_id location earliest duration_min deadline priority
      max_wait_min b h
    exact cand_list_start_ge _ _ _ _ _ _ b
      (greedy_assign_mem db now job_type ref_id location earliest duration_min deadline
        priority max_wait_min b h)
  · intro time_ref H req t ht
    obtain ⟨h1, -⟩ := ht
    unfold solver_earliest_k at h1
    unfold solver_start
    rcases le_or_lt req.earliest time_ref with hle | hlt
    · constructor
      · have : (0 : Int) ≤ t := le_trans (le_max_left _ _) h1
        omega
      · have : (0 : Int) ≤ t := le_trans (le_max_left _ _) h1
        omega
    · have hpos : (0 : Int) ≤ req.earliest - time_ref := by omega
      have hfd : 5 * ((req.earliest - time_ref).fdiv 5) + (req.earliest - time_ref).fmod 5 =
          req.earliest - time_ref := Int.fdiv_add_fmod _ _
      have hm0 : (0 : Int) ≤ (req.earliest - time_ref).fmod 5 :=
        Int.fmod_nonneg hpos (by omega)
      have hm5 : (req.earliest - time_ref).fmod 5 < 5 :=
        Int.fmod_lt_of_pos _ (by omega)
      have h2 : (req.earliest - time_ref).fdiv 5 ≤ t := le_trans (le_max_right _ _) h1
      constructor
      · have : (0 : Int) ≤ t := le_trans (le_max_left _ _) h1
        omega
      · omega

/-- Witness for C6 amended: concrete greedy and solver instantiations. -/
theorem C6_amended_start_bounds_witness :
    ((10 : Int) ≤ (⟨"D1", 10, 40, 0, -10⟩ : Cand).start) ∧
    ((0 : Int) ≤ solver_start 0 2 ∧ (7 : Int) - 4 ≤ solver_start 0 2) :=
  ⟨C6_amended_start_bounds.1 exDB_g 0 "inbound" "T1" "L" 10 30 none 2 60
      ⟨"D1", 10, 40, 0, -10⟩ (by decide),
    C6_amended_start_bounds.2 0 48 exReq6 2 (by decide)⟩

/-! ## Claim C1: the committed state never double-books a door -/

/-- The persisted-state invariant: no two assignments on the same door, both
with status scheduled or in_progress, have overlapping half-open intervals. -/
def Inv (db : DBState) : Prop :=
  db.dock_assignments.Pairwise (fun a b =>
    a.door_id = b.door_id → statusActive a.status = true → statusActive b.status = true →
    overlaps a.start_utc a.end_utc b.start_utc b.end_utc = false)

/-- If hard_checks passes, the overlap scan found no active conflicting
assignment on the proposal's door. -/
lemma hard_checks_true_no_conflict (db : DBState) (p : Proposal)
    (h : (hard_checks db p).1 = true) :
    db.dock_assignments.any (fun a =>
      a.door_id == p.door_id && statusActive a.status &&
      overlaps a.start_utc a.end_utc p.start_utc p.end_utc) = false := by
  unfold hard_checks at h
  split at h
  · simp at h
  · split_ifs at h with h1 h2
    simp only [Bool.not_eq_true] at h2
    exact h2

/-- Committing one proposal that passed hard_checks preserves the no-overlap
invariant. -/
lemma Inv_commit_insert (db : DBState) (p : Proposal) (rc : String)
    (hInv : Inv db) (hok : (hard_checks db p).1 = true) :
    Inv (commit_insert db p rc) := by
  have hno := hard_checks_true_no_conflict db p hok
  unfold Inv commit_insert
  dsimp only
  rw [List.pairwise_append]
  refine ⟨hInv, List.pairwise_singleton _ _, ?_⟩
  intro a ha x hx
  simp only [List.mem_singleton] at hx
  subst hx
  intro hdoor hact _
  dsimp only at hdoor ⊢
  cases hov : overlaps a.start_utc a.end_utc p.start_utc p.end_utc with
  | false => rfl
  | true =>
    exfalso
    have hpred : (a.door_id == p.door_id && statusActive a.status &&
        overlaps a.start_utc a.end_utc p.start_utc p.end_utc) = true := by
      simp only [Bool.and_eq_true, beq_iff_eq]
      exact ⟨⟨hdoor, hact⟩, hov⟩
    have hT : db.dock_assignments.any (fun a =>
        a.door_id == p.door_id && statusActive a.status &&
        overlaps a.start_utc a.end_utc p.start_utc p.end_utc) = true :=
      List.any_eq_true.mpr ⟨a, ha, hpred⟩
    rw [hno] at hT
    exact absurd hT (by simp)

/-- The decide_and_commit loop preserves the invariant of its database
accumulator. -/
lemma decide_fold_inv (ps : List Proposal) :
    ∀ acc : List Proposal × ℚ × DBState, Inv acc.2.2 →
      Inv (ps.foldl decide_step acc).2.2 := by
  induction ps with
  | nil => intro acc h; exact h
  | cons p ps ih =>
    intro acc h
    rw [List.foldl_cons]
    apply ih
    unfold decide_step
    dsimp only
    split_ifs with hc
    · exact Inv_commit_insert _ _ _ h hc.1
    · exact h

/-- The optimize_batch_and_commit loop preserves the invariant of its
database accumulator, whatever the solver returned. -/
lemma optimize_fold_inv (location : String) (sol : List (String × SolRecord))
    (reqs : List SolverReq) :
    ∀ acc : List Proposal × DBState, Inv acc.2 →
      Inv (reqs.foldl (optimize_step location sol) acc).2 := by
  induction reqs with
  | nil => intro acc h; exact h
  | cons req reqs ih =>
    intro acc h
    rw [List.foldl_cons]
    apply ih
    unfold optimize_step
    cases sol.find? (fun q => q.1 == req.id) with
    | none => exact h
    | some q =>
      dsimp only
      split_ifs with hc
      · exact Inv_commit_insert _ _ _ h hc
      · exact h

/-- C1: both commit paths preserve the no-double-booking invariant — every
proposal is re-validated against the current (partially committed) state
before being persisted with status scheduled — and any proposal that would
overlap an existing active assignment on its door fails hard_checks. -/
theorem C1_commit_preserves_invariant (db : DBState) (ps : List Proposal)
    (location : String) (reqs : List SolverReq) (sol : List (String × SolRecord))
    (hInv : Inv db) :
    Inv (decide_and_commit db ps).2 ∧
    Inv (optimize_commit db location reqs sol).2 ∧
    (∀ p : Proposal,
      (∃ a ∈ db.dock_assignments, a.door_id = p.door_id ∧ statusActive a.status = true ∧
        overlaps a.start_utc a.end_utc p.start_utc p.end_utc = true) →
      (hard_checks db p).1 = false) := by
  refine ⟨?_, ?_, ?_⟩
  · unfold decide_and_commit
    exact decide_fold_inv ps ([], 0, db) hInv
  · unfold optimize_commit
    split_ifs with hd
    · exact hInv
    · exact optimize_fold_inv location sol reqs ([], db) hInv
  · intro p hex
    cases hfst : (hard_checks db p).1 with
    | false => rfl
    | true =>
      exfalso
      have hno := hard_checks_true_no_conflict db p hfst
      obtain ⟨a, ha, hdoor, hact, hov⟩ := hex
      have hpred : (a.door_id == p.door_id && statusActive a.status &&
          overlaps a.start_utc a.end_utc p.start_utc p.end_utc) = true := by
        simp only [Bool.and_eq_true, beq_iff_eq]
        exact ⟨⟨hdoor, hact⟩, hov⟩
      have hT : db.dock_assignments.any (fun a =>
          a.door_id == p.door_id && statusActive a.status &&
          overlaps a.start_utc a.end_utc p.start_utc p.end_utc) = true :=
        List.any_eq_true.mpr ⟨a, ha, hpred⟩
      rw [hno] at hT
      exact absurd hT (by simp)

/-- A state with one scheduled assignment, used to instantiate C1. -/
def exDB1 : DBState :=
  ⟨[⟨"D1", "L", 1⟩], [⟨"a1", "L", "D1", "inbound", "T0", 0, 30, "auto", "scheduled"⟩],
   [⟨"L", 30, 60, 1, 1⟩], []⟩

/-- Witness for C1 at a concrete input: the invariant holds before the
commit, still holds after both commit paths run on a touching follow-up
proposal, and a proposal overlapping the existing assignment fails
validation. -/
theorem C1_commit_preserves_invariant_witness :
    Inv (decide_and_commit exDB1 [⟨"t", "pr", "inbound", "T1", "L", "D1", 30, 60, 0, 0⟩]).2 ∧
    Inv (optimize_commit exDB1 "L" [exReq6] exSol6).2 ∧
    (∀ p : Proposal,
      (∃ a ∈ exDB1.dock_assignments, a.door_id = p.door_id ∧ statusActive a.status = true ∧
        overlaps a.start_utc a.end_utc p.start_utc p.end_utc = true) →
      (hard_checks exDB1 p).1 = false) :=
  C1_commit_preserves_invariant exDB1
    [⟨"t", "pr", "inbound", "T1", "L", "D1", 30, 60, 0, 0⟩] "L" [exReq6] exSol6
    (by unfold Inv; decide)

/-! ## Claim C3: the acceptance gates of the two commit paths -/

/-- Every proposal accepted by the decide_and_commit loop occurs in the
batch, passed hard_checks against the exact intermediate database reached
after the prefix of proposals before it, and cleared the 0.6 confidence
gate. -/
lemma decide_fold_accept_gate (ps : List Proposal) :
    ∀ acc : List Proposal × ℚ × DBState, ∀ p ∈ (ps.foldl decide_step acc).1,
      p ∈ acc.1 ∨ ∃ pre post, ps = pre ++ p :: post ∧
        (hard_checks (pre.foldl decide_step acc).2.2 p).1 = true ∧
        6/10 ≤ score_confidence true p.lateness_min p.local_cost 0 := by
  induction ps with
  | nil => intro acc p hp; exact Or.inl hp
  | cons q ps ih =>
    intro acc p hp
    rw [List.foldl_cons] at hp
    rcases ih (decide_step acc q) p hp with hmem | ⟨pre, post, hsplit, hhc, hconf⟩
    · unfold decide_step at hmem
      dsimp only at hmem
      split_ifs at hmem with hc
      · rcases List.mem_append.mp hmem with h | h
        · exact Or.inl h
        · simp only [List.mem_singleton] at h
          subst h
          refine Or.inr ⟨[], ps, rfl, hc.1, ?_⟩
          have h2 := hc.2
          rw [hc.1] at h2
          exact h2
      · exact Or.inl hmem
    · refine Or.inr ⟨q :: pre, post, by rw [hsplit]; rfl, ?_, hconf⟩
      rw [List.foldl_cons]
      exact hhc

/-- Every proposal accepted by the optimize_batch_and_commit loop comes from
some request of the batch and passed hard_checks against the exact
intermediate database reached after the prefix of requests before it; no
confidence gate appears on this path. -/
lemma optimize_fold_accept_gate (location : String) (sol : List (String × SolRecord))
    (reqs : List SolverReq) :
    ∀ acc : List Proposal × DBState,
      ∀ p ∈ (reqs.foldl (optimize_step location sol) acc).1,
        p ∈ acc.1 ∨ ∃ pre req post, reqs = pre ++ req :: post ∧
          (hard_checks (pre.foldl (optimize_step location sol) acc).2 p).1 = true := by
  induction reqs with
  | nil => intro acc p hp; exact Or.inl hp
  | cons r reqs ih =>
    intro acc p hp
    rw [List.foldl_cons] at hp
    rcases ih (optimize_step location sol acc r) p hp with
      hmem | ⟨pre, req, post, hsplit, hhc⟩
    · unfold optimize_step at hmem
      split at hmem
      · exact Or.inl hmem
      · dsimp only at hmem
        split_ifs at hmem with hc
        · rcases List.mem_append.mp hmem with h | h
          · exact Or.inl h
          · simp only [List.mem_singleton] at h
            subst h
            exact Or.inr ⟨[], r, reqs, rfl, hc⟩
        · exact Or.inl hmem
    · refine Or.inr ⟨r :: pre, req, post, by rw [hsplit]; rfl, ?_⟩
      rw [List.foldl_cons]
      exact hhc

/-- C3 amended: on the real-time path (decide_and_commit) a proposal is
accepted only if hard_checks passed against the intermediate state current
at its turn AND its confidence is at least 0.6; on the batch-optimizer path
(optimize_batch_and_commit) acceptance requires only that hard_checks
passed at its turn — no confidence threshold is applied there. -/
theorem C3_amended_acceptance_gates :
    (∀ (db : DBState) (ps : List Proposal) (p : Proposal),
      p ∈ (decide_and_commit db ps).1.accepted_proposals →
      ∃ pre post, ps = pre ++ p :: post ∧
        (hard_checks (pre.foldl decide_step ([], 0, db)).2.2 p).1 = true ∧
        6/10 ≤ score_confidence true p.lateness_min p.local_cost 0) ∧
    (∀ (db : DBState) (location : String) (reqs : List SolverReq)
      (sol : List (String × SolRecord)) (p : Proposal),
      p ∈ (optimize_commit db location reqs sol).1.accepted_proposals →
      ∃ pre req post, reqs = pre ++ req :: post ∧
        (hard_checks (pre.foldl (optimize_step location sol) ([], db)).2 p).1 = true) := by
  constructor
  · intro db ps p hp
    have := decide_fold_accept_gate ps ([], 0, db) p hp
    rcases this with h | h
    · exact absurd h (by simp)
    · exact h
  · intro db location reqs sol p hp
    unfold optimize_commit at hp
    split_ifs at hp with hd
    · exact absurd hp (by simp)
    · have := optimize_fold_accept_gate location sol reqs ([], db) p hp
      rcases this with h | h
      · exact absurd h (by simp)
      · exact h

/-- One active door at location L with resource coverage on [0,30]. -/
def exDB3 : DBState := ⟨[⟨"D1", "L", 1⟩], [], [⟨"L", 0, 30, 1, 1⟩], []⟩

/-- An outbound batch request whose cutoff lies 1000 minutes in the past:
earliest-ready at the time reference, 30-minute duration, priority 13 (high
enough that assigning it beats leaving it unassigned). -/
def exReq3 : SolverReq := ⟨"j1", "outbound", 30, 0, some (-1000), 13⟩

/-- The solver output for exReq3: the decode of door 0, slot 0 — which the
counterexample proves to be the unique optimal choice of the CP model, so
this is exactly what solve_batch returns. It carries lateness 1030 and
local_cost 1995. -/
def exSol3 : List (String × SolRecord) := [("j1", solver_decode 0 ["D1"] exReq3 0 0)]

/-- Counterexample to C3: for exReq3 the CP model's unique optimal choice is
slot 0 — its objective coefficient 15·t − 5 (the past deadline is clamped to
the time reference inside the model) is −5 at t = 0, beating every later
slot and the empty assignment — so exSol3 is the only possible solve_batch
output. Decoding slot 0 against the actual deadline yields lateness 1030
and local_cost 1995; the scorer would rate the resulting proposal 0.4 < 0.6,
yet optimize_batch_and_commit accepts and persists it — the solver path
never consults the Confidence Scorer. -/
theorem C3_counterexample_no_gate_on_solver_path :
    (∀ c, one_job_optimal 0 exReq3 c → c = some (0 : Fin 48)) ∧
    one_job_optimal 0 exReq3 (some (0 : Fin 48)) ∧
    exSol3 = [("j1", solver_decode 0 ["D1"] exReq3 0 0)] ∧
    ∃ p ∈ (optimize_commit exDB3 "L" [exReq3] exSol3).1.accepted_proposals,
      score_confidence true p.lateness_min p.local_cost 0 < 6/10 := by
  refine ⟨by decide, by decide, rfl,
    ⟨"task", "prop", "outbound", "j1", "L", "D1", 0, 30, 1995, 1030⟩, by decide, ?_⟩
  norm_num [score_confidence, min_def, max_def]

/-- A cheap on-time proposal on the exDB3 state. -/
def exP3 : Proposal := ⟨"t", "pr", "inbound", "T1", "L", "D1", 0, 30, 0, 0⟩

/-- Witness for C3 amended: on concrete batches, a proposal accepted by the
real-time path passed validation at its turn and cleared the confidence
gate, and a proposal accepted by the solver path passed validation at its
turn. -/
theorem C3_amended_acceptance_gates_witness :
    (∃ pre post, [exP3] = pre ++ exP3 :: post ∧
      (hard_checks (pre.foldl decide_step ([], 0, exDB3)).2.2 exP3).1 = true ∧
      6/10 ≤ score_confidence true exP3.lateness_min exP3.local_cost 0) ∧
    (∃ pre req post, [exReq3] = pre ++ req :: post ∧
      (hard_checks (pre.foldl (optimize_step "L" exSol3) ([], exDB3)).2
        ⟨"task", "prop", "outbound", "j1", "L", "D1", 0, 30, 1995, 1030⟩).1 = true) := by
  constructor
  · apply C3_amended_acceptance_gates.1 exDB3 [exP3] exP3
    unfold decide_and_commit
    dsimp only [List.foldl_cons, List.foldl_nil]
    unfold decide_step
    dsimp only
    split_ifs with hc
    · simp
    · exfalso
      apply hc
      refine ⟨by decide, ?_⟩
      rw [show (hard_checks exDB3 exP3).1 = true from by decide]
      norm_num [exP3, score_confidence, min_def, max_def]
  · exact C3_amended_acceptance_gates.2 exDB3 "L" [exReq3] exSol3
      ⟨"task", "prop", "outbound", "j1", "L", "D1", 0, 30, 1995, 1030⟩ (by decide)

/-! ## Claim C4: the accumulated penalty is never fed to the scorer -/

/-- First proposal of the C4 batch: feasible but scored 0.4, so rejected. -/
def exP4a : Proposal := ⟨"t1", "p1", "inbound", "TA", "L", "D1", 0, 30, 60, 60⟩

/-- Second proposal of the C4 batch: scored 0.65 with a zero penalty, 0.55
had the accumulated 0.1 penalty been applied. -/
def exP4b : Proposal := ⟨"t2", "p2", "inbound", "TB", "L", "D1", 40, 60, 40, 30⟩

/-- One door, resource coverage for both C4 proposals. -/
def exDB4 : DBState :=
  ⟨[⟨"D1", "L", 1⟩], [], [⟨"L", 0, 30, 1, 1⟩, ⟨"L", 40, 60, 1, 1⟩], []⟩

/-- C4 evaluation at the failing input: the first proposal is rejected and
the loop's penalties accumulator duly reaches 0.1, yet the second proposal
is still accepted because the source passes the literal 0.0 — not the
accumulator — to score_confidence; under the claimed semantics its
confidence 0.55 would have fallen below the 0.6 gate. -/
theorem C4_penalty_ignored_eval :
    (decide_and_commit exDB4 [exP4a, exP4b]).1.accepted_proposals = [exP4b] ∧
    ([exP4a, exP4b].foldl decide_step ([], 0, exDB4)).2.1 = 1/10 ∧
    score_confidence true exP4b.lateness_min exP4b.local_cost (1/10) < 6/10 ∧
    6/10 ≤ score_confidence true exP4b.lateness_min exP4b.local_cost 0 := by
  have h1 : decide_step ([], 0, exDB4) exP4a = ([], 0 + 1/10, exDB4) := by
    unfold decide_step
    dsimp only
    split_ifs with hc
    · exfalso
      obtain ⟨hok, hle⟩ := hc
      rw [show (hard_checks exDB4 exP4a).1 = true from by decide] at hle
      norm_num [exP4a, score_confidence, min_def, max_def] at hle
    · rfl
  have h2 : decide_step ([], 0 + 1/10, exDB4) exP4b =
      ([exP4b], 0 + 1/10, commit_insert exDB4 exP4b "heuristic_choice") := by
    unfold decide_step
    dsimp only
    split_ifs with hc
    · rfl
    · exfalso
      apply hc
      refine ⟨by decide, ?_⟩
      rw [show (hard_checks exDB4 exP4b).1 = true from by decide]
      norm_num [exP4b, score_confidence, min_def, max_def]
  refine ⟨?_, ?_, ?_, ?_⟩
  · unfold decide_and_commit
    dsimp only [List.foldl_cons, List.foldl_nil]
    rw [h1, h2]
  · dsimp only [List.foldl_cons, List.foldl_nil]
    rw [h1, h2]
    norm_num
  · norm_num [exP4b, score_confidence, min_def, max_def]
  · norm_num [exP4b, score_confidence, min_def, max_def]

/-! ## Claim C9: what Decision.confidence aggregates on each path -/

/-- The confidence reported by decide_and_commit is the mean of the accepted
proposals' re-computed scorer confidences. -/
lemma decide_confidence_formula (db : DBState) (ps : List Proposal) :
    (decide_and_commit db ps).1.confidence =
      (if (decide_and_commit db ps).1.accepted_proposals.isEmpty then 0
       else ((decide_and_commit db ps).1.accepted_proposals.map
           (fun p => score_confidence true p.lateness_min p.local_cost 0)).sum /
         (((decide_and_commit db ps).1.accepted_proposals.length : ℚ))) := rfl

/-- The confidence reported by optimize_batch_and_commit is the mean of
1 − lateness-penalty terms over the accepted proposals. -/
lemma optimize_confidence_formula (db : DBState) (location : String)
    (reqs : List SolverReq) (sol : List (String × SolRecord)) :
    (optimize_commit db location reqs sol).1.confidence =
      (if (optimize_commit db location reqs sol).1.accepted_proposals.isEmpty then 0
       else ((optimize_commit db location reqs sol).1.accepted_proposals.map
           (fun p => 1 - min (((max p.lateness_min 0 : Int) : ℚ) / 60) 1 * (3/10))).sum /
         (((optimize_commit db location reqs sol).1.accepted_proposals.length : ℚ))) := by
  unfold optimize_commit
  by_cases hd : (active_doors db location).isEmpty = true
  · rw [if_pos hd]
    simp
  · rw [if_neg hd]

/-- C9 amended: on the heuristic path Decision.confidence is the mean of the
accepted proposals' scorer confidences (0 if none); on the solver path it is
the mean of 1 − lateness-penalty terms, which omits the scorer's cost
penalty. -/
theorem C9_amended_confidence_formulas :
    (∀ (db : DBState) (ps : List Proposal),
      (decide_and_commit db ps).1.confidence =
        (if (decide_and_commit db ps).1.accepted_proposals.isEmpty then 0
         else ((decide_and_commit db ps).1.accepted_proposals.map
             (fun p => score_confidence true p.lateness_min p.local_cost 0)).sum /
           (((decide_and_commit db ps).1.accepted_proposals.length : ℚ)))) ∧
    (∀ (db : DBState) (location : String) (reqs : List SolverReq)
      (sol : List (String × SolRecord)),
      (optimize_commit db location reqs sol).1.confidence =
        (if (optimize_commit db location reqs sol).1.accepted_proposals.isEmpty then 0
         else ((optimize_commit db location reqs sol).1.accepted_proposals.map
             (fun p => 1 - min (((max p.lateness_min 0 : Int) : ℚ) / 60) 1 * (3/10))).sum /
           (((optimize_commit db location reqs sol).1.accepted_proposals.length : ℚ)))) :=
  ⟨fun db ps => decide_confidence_formula db ps,
   fun db location reqs sol => optimize_confidence_formula db location reqs sol⟩

/-- Counterexample to C9: committing the only possible solve_batch output
for exReq3 (slot 0, proven the unique CP optimum; decoded lateness 1030,
cost 1995), the solver path's Decision.confidence is 0.7 — the 1 − lateness
penalty term — while the mean of the accepted proposals' Confidence Scorer
values is 0.4, because the solver path's aggregate ignores the scorer's
cost penalty. -/
theorem C9_counterexample_solver_mean :
    (∀ c, one_job_optimal 0 exReq3 c → c = some (0 : Fin 48)) ∧
    exSol3 = [("j1", solver_decode 0 ["D1"] exReq3 0 0)] ∧
    (optimize_commit exDB3 "L" [exReq3] exSol3).1.confidence = 7/10 ∧
    ((optimize_commit exDB3 "L" [exReq3] exSol3).1.accepted_proposals.map
      (fun p => score_confidence true p.lateness_min p.local_cost 0)) = [2/5] ∧
    (7/10 : ℚ) ≠ 2/5 := by
  have hacc : (optimize_commit exDB3 "L" [exReq3] exSol3).1.accepted_proposals =
      [⟨"task", "prop", "outbound", "j1", "L", "D1", 0, 30, ((1995 : Int) : ℚ), 1030⟩] := by
    decide
  refine ⟨by decide, rfl, ?_, ?_, by norm_num⟩
  · rw [optimize_confidence_formula, hacc]
    norm_num [min_def, max_def]
  · rw [hacc]
    simp only [List.map_cons, List.map_nil, List.cons.injEq, and_true]
    norm_num [score_confidence, min_def, max_def]

/-! ## Claim C5: free windows and assignment status -/

/-- Overwrite an assignment's status, keeping every other field. -/
def set_status (g : Assignment → String) (a : Assignment) : Assignment :=
  ⟨a.assignment_id, a.location, a.door_id, a.job_type, a.ref_id, a.start_utc,
   a.end_utc, a.crew, g a⟩

/-- The rows feeding the free-window subtraction are untouched by any change
of statuses: the source query filters on location and end time only. -/
lemma fw_rows_set_status (g : Assignment → String) (l : List Assignment)
    (loc : String) (now : Int) :
    fw_rows (l.map (set_status g)) loc now = fw_rows l loc now := by
  unfold fw_rows
  rw [List.filter_map, List.map_map]
  rfl

/-- C5 amended: load_free_windows reads every assignment at the location
whose end is not in the past, with no status filter — its result is
invariant under arbitrary relabelling of statuses, so cancelled/completed
assignments shrink free windows exactly as scheduled ones do. -/
theorem C5_amended_status_ignored (g : Assignment → String) (db : DBState)
    (now : Int) (location : String) (horizon_min : Int) :
    load_free_windows ⟨db.dock_doors, db.dock_assignments.map (set_status g),
        db.dock_resources, db.dock_events⟩ now location horizon_min =
      load_free_windows db now location horizon_min := by
  unfold load_free_windows
  dsimp only
  rw [fw_rows_set_status]
  rfl

/-- A cancelled assignment occupying [10,40) on the only door. -/
def exA5 : Assignment := ⟨"a1", "L", "D1", "inbound", "T0", 10, 40, "auto", "cancelled"⟩

/-- One door with the cancelled assignment present. -/
def exDB5 : DBState := ⟨[⟨"D1", "L", 1⟩], [exA5], [], []⟩

/-- The same door with no assignments at all. -/
def exDB5e : DBState := ⟨[⟨"D1", "L", 1⟩], [], [], []⟩

/-- Counterexample to C5: a cancelled assignment does shrink the door's free
windows — with it present the full-horizon window [0,240) is split around
[10,40), although the claim says cancelled assignments never shrink any
free window. -/
theorem C5_counterexample_cancelled_shrinks :
    exA5.status = "cancelled" ∧
    load_free_windows exDB5e 0 "L" 240 = [("D1", [(0, 240)])] ∧
    load_free_windows exDB5 0 "L" 240 = [("D1", [(0, 10), (40, 240)])] :=
  ⟨rfl, by decide, by decide⟩

/-! ## Claims C7 and C8: the validator's checks in detail -/

/-- hard_checks with the door stage discharged: what remains is the overlap
scan and the resource aggregate. -/
lemma hard_checks_door_ok (db : DBState) (p : Proposal) (d : Door)
    (hfind : db.dock_doors.find? (fun d' => d'.door_id == p.door_id) = some d)
    (hact : d.is_active = 1) :
    hard_checks db p =
      (if db.dock_assignments.any (fun a =>
          a.door_id == p.door_id && statusActive a.status &&
          overlaps a.start_utc a.end_utc p.start_utc p.end_utc) = true
       then (false, "double_booking")
       else match contained_slots db p with
        | [] => (false, "no_resource_calendar")
        | r0 :: rest =>
          if rest.foldl (fun m r => min m r.crews) r0.crews < 1 ∨
             rest.foldl (fun m r => min m r.forklifts) r0.forklifts < 1
          then (false, "insufficient_resources") else (true, "ok")) := by
  unfold hard_checks
  simp only [hfind]
  rw [if_neg (show ¬(d.is_active ≠ 1) from by omega)]

/-- Folding min over a projection stays at least c iff the seed and every
projected element do. -/
lemma le_foldl_min {α : Type} (f : α → Int) (c : Int) (l : List α) (a : Int) :
    c ≤ l.foldl (fun m r => min m (f r)) a ↔ c ≤ a ∧ ∀ x ∈ l, c ≤ f x := by
  induction l generalizing a with
  | nil => simp
  | cons x l ih =>
    rw [List.foldl_cons, ih]
    simp only [List.mem_cons, le_min_iff]
    constructor
    · rintro ⟨⟨h1, h2⟩, h3⟩
      refine ⟨h1, fun y hy => ?_⟩
      rcases hy with he | hy
      · subst he; exact h2
      · exact h3 y hy
    · rintro ⟨h1, h2⟩
      exact ⟨⟨h1, h2 x (Or.inl rfl)⟩, fun y hy => h2 y (Or.inr hy)⟩

/-- Specialization of le_foldl_min to the MIN aggregate of hard_checks. -/
lemma one_le_min_fold {α : Type} (f : α → Int) (r0 : α) (rest : List α) :
    1 ≤ rest.foldl (fun m r => min m (f r)) (f r0) ↔ ∀ x ∈ r0 :: rest, 1 ≤ f x := by
  rw [le_foldl_min, List.forall_mem_cons]

/-- C8: for a proposal whose door exists and is active, hard_checks reports
double_booking exactly when some assignment with status scheduled or
in_progress on that door overlaps [start, end) under half-open semantics;
and the overlap test itself treats touching intervals as non-overlapping. -/
theorem C8_double_booking_iff :
    (∀ (db : DBState) (p : Proposal) (d : Door),
      db.dock_doors.find? (fun d' => d'.door_id == p.door_id) = some d →
      d.is_active = 1 →
      (hard_checks db p = (false, "double_booking") ↔
        ∃ a ∈ db.dock_assignments, a.door_id = p.door_id ∧ statusActive a.status = true ∧
          overlaps a.start_utc a.end_utc p.start_utc p.end_utc = true)) ∧
    (∀ x y z w : Int, y ≤ z ∨ w ≤ x → overlaps x y z w = false) := by
  constructor
  · intro db p d hfind hact
    rw [hard_checks_door_ok db p d hfind hact]
    by_cases hany : db.dock_assignments.any (fun a =>
        a.door_id == p.door_id && statusActive a.status &&
        overlaps a.start_utc a.end_utc p.start_utc p.end_utc) = true
    · rw [if_pos hany]
      constructor
      · intro _
        obtain ⟨a, ha, hpred⟩ := List.any_eq_true.mp hany
        simp only [Bool.and_eq_true, beq_iff_eq] at hpred
        exact ⟨a, ha, hpred.1.1, hpred.1.2, hpred.2⟩
      · intro _
        rfl
    · rw [if_neg hany]
      constructor
      · intro heq
        exfalso
        cases hcs : contained_slots db p with
        | nil =>
          rw [hcs] at heq
          exact absurd heq (by decide)
        | cons r0 rest =>
          rw [hcs] at heq
          dsimp only at heq
          split_ifs at heq
          · exact absurd heq (by decide)
          · exact absurd heq (by decide)
      · rintro ⟨a, ha, hdoor, hact2, hov⟩
        exfalso
        apply hany
        refine List.any_eq_true.mpr ⟨a, ha, ?_⟩
        simp only [Bool.and_eq_true, beq_iff_eq]
        exact ⟨⟨hdoor, hact2⟩, hov⟩
  · intro x y z w h
    unfold overlaps
    rcases h with h | h <;> simp [h]

/-- A proposal on the busy door of exDB1, overlapping the existing
assignment. -/
def exP8 : Proposal := ⟨"t", "pr", "inbound", "T1", "L", "D1", 20, 40, 0, 0⟩

/-- Witness for C8: on a state whose only door carries a scheduled
assignment on [0,30), a proposal for [20,40) is characterized by the iff,
and the touching pair (0,30)/(30,60) does not overlap. -/
theorem C8_double_booking_iff_witness :
    (hard_checks exDB1 exP8 = (false, "double_booking") ↔
      ∃ a ∈ exDB1.dock_assignments, a.door_id = exP8.door_id ∧
        statusActive a.status = true ∧
        overlaps a.start_utc a.end_utc exP8.start_utc exP8.end_utc = true) ∧
    overlaps 0 30 30 60 = false :=
  ⟨C8_double_booking_iff.1 exDB1 exP8 ⟨"D1", "L", 1⟩ (by decide) rfl,
   C8_double_booking_iff.2 0 30 30 60 (Or.inl le_rfl)⟩

/-- C7 amended: having passed the door and overlap stages, the validator
looks only at calendar slots wholly CONTAINED in [start, end] — it does not
check that they cover the span. It passes iff at least one contained slot
exists and every contained slot has crew ≥ 1 and equipment ≥ 1; it fails
NoResourceCalendar iff no contained slot exists (even if wider slots cover
the span), and InsufficientResources iff contained slots exist but one of
them is under-resourced. -/
theorem C7_amended_resource_check (db : DBState) (p : Proposal) (d : Door)
    (hfind : db.dock_doors.find? (fun d' => d'.door_id == p.door_id) = some d)
    (hact : d.is_active = 1)
    (hover : db.dock_assignments.any (fun a =>
      a.door_id == p.door_id && statusActive a.status &&
      overlaps a.start_utc a.end_utc p.start_utc p.end_utc) = false) :
    (hard_checks db p = (false, "no_resource_calendar") ↔ contained_slots db p = []) ∧
    (hard_checks db p = (true, "ok") ↔ contained_slots db p ≠ [] ∧
      ∀ r ∈ contained_slots db p, 1 ≤ r.crews ∧ 1 ≤ r.forklifts) ∧
    (hard_checks db p = (false, "insufficient_resources") ↔ contained_slots db p ≠ [] ∧
      ∃ r ∈ contained_slots db p, r.crews < 1 ∨ r.forklifts < 1) := by
  rw [hard_checks_door_ok db p d hfind hact,
    if_neg (show ¬(db.dock_assignments.any (fun a =>
      a.door_id == p.door_id && statusActive a.status &&
      overlaps a.start_utc a.end_utc p.start_utc p.end_utc) = true) from by
        rw [hover]; simp)]
  cases hcs : contained_slots db p with
  | nil => exact (by decide)
  | cons r0 rest =>
    dsimp only
    by_cases hAB : (rest.foldl (fun m r => min m r.crews) r0.crews < 1 ∨
        rest.foldl (fun m r => min m r.forklifts) r0.forklifts < 1)
    · rw [if_pos hAB]
      refine ⟨iff_of_false (by decide) (by simp),
        iff_of_false (by decide) ?_, iff_of_true rfl ?_⟩
      · rintro ⟨-, hall⟩
        rcases hAB with hA | hB
        · exact absurd ((one_le_min_fold (fun r => r.crews) r0 rest).mpr
            (fun x hx => (hall x hx).1)) (not_le.mpr hA)
        · exact absurd ((one_le_min_fold (fun r => r.forklifts) r0 rest).mpr
            (fun x hx => (hall x hx).2)) (not_le.mpr hB)
      · refine ⟨by simp, ?_⟩
        rcases hAB with hA | hB
        · have h' : ¬ ∀ x ∈ r0 :: rest, 1 ≤ x.crews := fun hc =>
            absurd ((one_le_min_fold (fun r => r.crews) r0 rest).mpr hc) (not_le.mpr hA)
          push_neg at h'
          obtain ⟨x, hx, hxc⟩ := h'
          exact ⟨x, hx, Or.inl hxc⟩
        · have h' : ¬ ∀ x ∈ r0 :: rest, 1 ≤ x.forklifts := fun hc =>
            absurd ((one_le_min_fold (fun r => r.forklifts) r0 rest).mpr hc) (not_le.mpr hB)
          push_neg at h'
          obtain ⟨x, hx, hxc⟩ := h'
          exact ⟨x, hx, Or.inr hxc⟩
    · rw [if_neg hAB]
      push_neg at hAB
      obtain ⟨hA, hB⟩ := hAB
      refine ⟨iff_of_false (by decide) (by simp), iff_of_true rfl ?_,
        iff_of_false (by decide) ?_⟩
      · refine ⟨by simp, fun r hr => ⟨?_, ?_⟩⟩
        · exact (one_le_min_fold (fun r => r.crews) r0 rest).mp hA r hr
        · exact (one_le_min_fold (fun r => r.forklifts) r0 rest).mp hB r hr
      · rintro ⟨-, x, hx, hviol⟩
        rcases hviol with hv | hv
        · exact absurd ((one_le_min_fold (fun r => r.crews) r0 rest).mp hA x hx)
            (not_le.mpr hv)
        · exact absurd ((one_le_min_fold (fun r => r.forklifts) r0 rest).mp hB x hx)
            (not_le.mpr hv)

/-- A one-hour proposal on exDB3, whose calendar only covers [0,30]. -/
def exP7 : Proposal := ⟨"t", "pr", "inbound", "T1", "L", "D1", 0, 60, 0, 0⟩

/-- Counterexample to C7: the validator passes this proposal although the
resource calendar has no coverage at minute 45 of its [0,60) span — the
contained-slot aggregate never verifies coverage of the whole span. -/
theorem C7_counterexample_no_span_coverage :
    hard_checks exDB3 exP7 = (true, "ok") ∧
    exP7.start_utc ≤ 45 ∧ (45 : Int) < exP7.end_utc ∧
    (∀ r ∈ exDB3.dock_resources, ¬(r.slot_start_utc ≤ 45 ∧ (45 : Int) < r.slot_end_utc)) :=
  ⟨by decide, by decide, by decide, by decide⟩

/-- Witness for C7 amended: the characterization instantiated on a concrete
state and proposal that reach the resource stage. -/
theorem C7_amended_resource_check_witness :
    (hard_checks exDB3 exP3 = (false, "no_resource_calendar") ↔
      contained_slots exDB3 exP3 = []) ∧
    (hard_checks exDB3 exP3 = (true, "ok") ↔ contained_slots exDB3 exP3 ≠ [] ∧
      ∀ r ∈ contained_slots exDB3 exP3, 1 ≤ r.crews ∧ 1 ≤ r.forklifts) ∧
    (hard_checks exDB3 exP3 = (false, "insufficient_resources") ↔
      contained_slots exDB3 exP3 ≠ [] ∧
      ∃ r ∈ contained_slots exDB3 exP3, r.crews < 1 ∨ r.forklifts < 1) :=
  C7_amended_resource_check exDB3 exP3 ⟨"D1", "L", 1⟩ (by decide) rfl (by decide)

end DockingAgent
